import Mathlib

/-!
Verification of the exec-symbols core (Church-encoded fact/state-machine
engine and its RMAP relational-mapping pipeline) against its design notes.

The shallow embedding translates the closure encodings into plain Lean data:
Church lists become `List`, Church numerals become `Nat`, Church booleans
become `Bool`, and the selector-style records (`FactSymbol`, `Event`,
`StateMachine`, `Constraint`, ...) become structures whose accessors are
field projections.  The result of a lookup that may return the `nil` marker
is modelled as an `Option`, with `none` playing the role of `nil`.
-/

namespace ExecSymbols

/-- Source `fold` (exec-symbols.ts): `fold f acc list` returns `acc` on the
empty list and `f head (fold f acc tail)` on `cons head tail` — a right fold. -/
def fold (f : α → β → β) (acc : β) : List α → β
  | [] => acc
  | head :: tail => f head (fold f acc tail)

/-- Source `append`: `append l1 l2 = fold cons l2 l1`. -/
def append (l1 l2 : List α) : List α := fold List.cons l2 l1

/-- Helper loop of source `nth`: walks `currentList` carrying `currentIndex`;
returns the `nil` marker (modelled `none`) on an exhausted list, the head when
`currentIndex` equals the target, and otherwise recurses on the tail with the
successor index. -/
def nthAux (targetN : Nat) : List α → Nat → Option α
  | [], _ => none
  | h :: t, currentIndex =>
      if currentIndex = targetN then some h else nthAux targetN t (currentIndex + 1)

/-- Source `nth`: starts the walk at index `ZERO`. -/
def nth (n : Nat) (l : List α) : Option α := nthAux n l 0

/-- Source `Event(fact)(time)(readings)`: a pure triple. -/
structure Event (φ τ ρ : Type) where
  fact : φ
  time : τ
  readings : ρ

/-- Source `get_fact`. -/
def get_fact (e : Event φ τ ρ) : φ := e.fact

/-- Source `make_transition(guard)(compute_next)`: apply `compute_next` when
the guard holds, else return the state unchanged. -/
def make_transition (guard : σ → ι → Bool) (compute_next : σ → ι → σ)
    (state : σ) (input : ι) : σ :=
  if guard state input then compute_next state input else state

/-- Source `unguarded`: `make_transition` with the constant-`TRUE` guard. -/
def unguarded (compute_next : σ → ι → σ) : σ → ι → σ :=
  make_transition (fun _ _ => true) compute_next

/-- Source `StateMachine(transition)(initial)`: a configuration pair. -/
structure StateMachine (σ φ : Type) where
  transition : σ → φ → σ
  initial : σ

/-- Source `run_machine`: folds
`fun event state => transition state (get_fact event)` over the stream with
the machine's initial state as accumulator, using the right fold `fold`. -/
def run_machine (machine : StateMachine σ φ) (stream : List (Event φ τ ρ)) : σ :=
  fold (fun event state => machine.transition state (get_fact event))
    machine.initial stream

/-- The step function the spec claims `run_machine` iterates left-to-right. -/
def stepFn (machine : StateMachine σ φ) : σ → Event φ τ ρ → σ :=
  fun state event => machine.transition state (get_fact event)

/-- A two-event machine whose transition is order-sensitive:
`transition s f = 2 * s + f` over natural-number facts. -/
def orderSensitiveMachine : StateMachine Nat Nat :=
  { transition := fun s f => 2 * s + f, initial := 0 }

/-- The two-event stream `[fact 1 at t0, fact 2 at t1]`. -/
def twoEventStream : List (Event Nat Nat Unit) :=
  [{ fact := 1, time := 0, readings := () }, { fact := 2, time := 1, readings := () }]

/-- Counter transition of the §8 scenario: unguarded, increments on verb
`"inc"`, decrements on `"dec"`, and otherwise leaves the state unchanged.
The state is a host integer, so it may go negative. -/
def counterTransition : Int → String → Int :=
  unguarded (fun state input =>
    if input = "inc" then state + 1
    else if input = "dec" then state - 1
    else state)

/-- The counter machine with initial state 0. -/
def counterMachine : StateMachine Int String :=
  { transition := counterTransition, initial := 0 }

/-- The event stream `[inc, inc, dec]` with opaque string times. -/
def counterStream : List (Event String String Unit) :=
  [{ fact := "inc", time := "t1", readings := () },
   { fact := "inc", time := "t2", readings := () },
   { fact := "dec", time := "t3", readings := () }]

/-- The type of a function awaiting `n` curried arguments of type `α` before
producing a `β` — the shape of the partially-applied functions `makeVerbFact`
returns. -/
def Curried (α β : Type) : Nat → Type
  | 0 => β
  | n + 1 => α → Curried α β n

/-- Source `FactType(arity)(verbFn)(reading)(constraints)`: an immutable
four-field descriptor; the verb function maps an ordered noun sequence to its
result. -/
structure FactType (α β ρ κ : Type) where
  arity : Nat
  verbFn : List α → β
  reading : ρ
  constraints : κ

/-- Source `get_arity`. -/
def get_arity (ft : FactType α β ρ κ) : Nat := ft.arity

/-- Source `get_verb`. -/
def get_verb (ft : FactType α β ρ κ) : List α → β := ft.verbFn

/-- The recursive core of source `makeVerbFact`:
`curry args n = n == 0 ? verbFn(args) : arg => curry (append args [arg]) (n - 1)`. -/
def makeVerbFactAux (verbFn : List α → β) : List α → (n : Nat) → Curried α β n
  | args, 0 => verbFn args
  | args, n + 1 => fun arg => makeVerbFactAux verbFn (append args [arg]) n

/-- Source `makeVerbFact`: starts the curried accumulation at `nil` with the
fact type's arity. -/
def makeVerbFact (ft : FactType α β ρ κ) : Curried α β (get_arity ft) :=
  makeVerbFactAux (get_verb ft) [] (get_arity ft)

/-- Source `FactSymbol(verb)(nouns)`: a verb identifier paired with the
ordered noun sequence.  Verb identifiers are modelled as strings (the code
stores either the string itself or an entity wrapping it, and its accessors
always resolve back to the identifier). -/
structure FactSymbol (ν : Type) where
  verb : String
  nouns : List ν
deriving DecidableEq

/-- Source `get_verb_symbol`. -/
def get_verb_symbol (f : FactSymbol ν) : String := f.verb

/-- Source `get_nouns`. -/
def get_nouns (f : FactSymbol ν) : List ν := f.nouns

/-- Applies a curried function expecting `n` arguments to a list of arguments
one at a time; `none` when the count does not match. -/
def applyCurried : (n : Nat) → Curried α β n → List α → Option β
  | 0, c, [] => some c
  | n + 1, c, arg :: rest => applyCurried n (c arg) rest
  | 0, _, _ :: _ => none
  | _ + 1, _, [] => none

/-- A fact as the RMAP pipeline sees it: a `FactSymbol` whose nouns are
entity identifiers (the pipeline only ever reads each noun through `get_id`,
so a noun is represented by its identifier string). -/
abbrev Fact := FactSymbol String

/-- Source modality tag `ALETHIC`. -/
def ALETHIC : String := "alethic"

/-- Source modality tag `DEONTIC`. -/
def DEONTIC : String := "deontic"

/-- Source `Constraint(modality)(predicate)`: a modality tag and a predicate
over a population (the predicate's type is a parameter; the RMAP pipeline
never invokes it). -/
structure Constraint (π : Type) where
  modality : String
  predicate : π

/-- The fold-based noun count used inside the source's `isUnary`:
`fold(n => acc => ADD(acc)(UINT(1)))(UINT(0))(nouns)` as a Church numeral,
embedded as the corresponding natural number. -/
def churchCount (nouns : List String) : Nat :=
  fold (fun _ acc => acc + 1) 0 nouns

/-- Source `isUnary` (rmap.ts, inside `transformUnaries`).  The source
compares the Church numeral produced by the fold with `UINT(1)` using
JavaScript `===`.  Both operands are freshly allocated closures (the fold's
result comes out of `ADD`, `UINT(1)` out of `SUCC`), and `===` on two
distinct function objects is reference equality, which is always false.
Hence the embedded predicate is constantly `false`, regardless of the count
`churchCount` computes. -/
def isUnary (_fact : Fact) : Bool := false

/-- The comparison the surrounding code and §4.8 step 1 of the design intend:
the fold-based count of the fact's noun sequence equals one.  Kept separate
from `isUnary` to state how the code diverges from that intent. -/
def isUnaryIntended (fact : Fact) : Bool :=
  churchCount (get_nouns fact) == 1

/-- The record `transformUnaries` builds for each detected unary fact:
`{ original: fact, transformed: fact, semantics: 'open-world' }`. -/
structure TransformedUnary where
  original : Fact
  transformed : Fact
  semantics : String
deriving DecidableEq

/-- Source `transformUnaries` (RMAP step 0.1): partition the facts by
`isUnary`, tag every unary fact with the fixed open-world marker, and pass
the rest on. -/
def transformUnaries (facts : List Fact) : List TransformedUnary × List Fact :=
  let unaries := facts.filter isUnary
  let rest := facts.filter (fun fact => !isUnary fact)
  (unaries.map (fun fact =>
    { original := fact, transformed := fact, semantics := "open-world" }), rest)

/-- Source `referencePredicates`. -/
def referencePredicates : List String := ["identifies", "references", "refers_to"]

/-- Source `isReference`: the fact's verb identifier is in the reference
vocabulary. -/
def isReference (fact : Fact) : Bool :=
  decide (get_verb_symbol fact ∈ referencePredicates)

/-- Source `eraseReferences` (RMAP step 0.2): record the first noun of every
reference fact as a black box (`nth 0` may return the nil marker on an empty
noun list, hence the `Option`) and keep only the non-reference facts. -/
def eraseReferences (facts : List Fact) : List (Option String) × List Fact :=
  ((facts.filter isReference).map (fun fact => nth 0 (get_nouns fact)),
   facts.filter (fun fact => !isReference fact))

/-- A table column: a name and a primitive type tag. -/
structure Column where
  name : String
  type : String
deriving DecidableEq

/-- An RMAP output table.  `rows` is omitted: the source only ever writes the
empty array into it, on tables of the dead step-1 branch. -/
structure Table where
  name : String
  columns : List Column
  key : Option String
  functionalRoles : List Fact
deriving DecidableEq

/-- Lookup in the verb-indexed compound-constraint map:
`constraintsByVerb[verb]?.hasCompoundConstraint` with a missing entry read as
false. -/
def hasCompound (constraintsByVerb : List (String × Bool)) (verb : String) : Bool :=
  (constraintsByVerb.lookup verb).getD false

/-- Source `mapCompoundConstraints` (RMAP step 1).  The `constraints.forEach`
loop only reads each constraint's modality and never writes to the map, so
`constraintsByVerb` stays empty; each fact whose verb the map flags would be
moved from `remainingFacts` into a verb-named table, and the others stay. -/
def mapCompoundConstraints (facts : List Fact) (constraints : List (Constraint π)) :
    List Table × List Fact :=
  let constraintsByVerb : List (String × Bool) :=
    constraints.foldl (fun m _ => m) []
  let compoundVerbs :=
    (facts.filter (fun fact => hasCompound constraintsByVerb (get_verb_symbol fact))).foldl
      (fun acc fact =>
        if get_verb_symbol fact ∈ acc then acc else acc ++ [get_verb_symbol fact]) []
  (compoundVerbs.map (fun verb =>
     { name := verb, columns := [], key := none, functionalRoles := [] }),
   facts.filter (fun fact => !hasCompound constraintsByVerb (get_verb_symbol fact)))

/-- Insertion into a JS `Set`, modelled as an insertion-ordered duplicate-free
list: adding a present element is a no-op, a new element goes to the back. -/
def insertUnique (l : List String) (x : String) : List String :=
  if x ∈ l then l else l ++ [x]

/-- One fact's contribution to the `objectTypes` set: the source adds each
noun's identifier from inside the right fold, whose thunks fire tail-first,
so the head's identifier is inserted after the whole tail's. -/
def addNounIds (acc : List String) : List String → List String
  | [] => acc
  | h :: t => insertUnique (addNounIds acc t) h

/-- The `objectTypes` set of source `groupFunctionalRoles`: every noun
identifier occurring in the facts, visited fact-by-fact. -/
def collectObjectTypes (facts : List Fact) : List String :=
  facts.foldl (fun acc fact => addNounIds acc (get_nouns fact)) []

/-- Source `groupFunctionalRoles` (RMAP step 2.1): one candidate table per
distinct noun identifier, keyed on `<identifier>_id`, listing the facts
mentioning that identifier as its functional roles. -/
def groupFunctionalRoles (facts : List Fact) : List Table :=
  (collectObjectTypes facts).map (fun objectType =>
    { name := objectType,
      columns := [{ name := "id", type := "string" }],
      key := some (objectType ++ "_id"),
      functionalRoles :=
        facts.filter (fun fact => decide (objectType ∈ get_nouns fact)) })

/-- One fact's contribution to the `independentObjects` set of source
`mapIndependentObjects`: each noun identifier not named by an existing table
is added (tail-first, like `addNounIds`). -/
def addIndepIds (objectsWithRoles : List String) (acc : List String) :
    List String → List String
  | [] => acc
  | h :: t =>
      let acc2 := addIndepIds objectsWithRoles acc t
      if h ∈ objectsWithRoles then acc2 else insertUnique acc2 h

/-- Source `mapIndependentObjects` (RMAP step 3): one table with generated
`id` and `created_at` columns per noun identifier not covered by an existing
table. -/
def mapIndependentObjects (facts : List Fact) (existingTables : List Table) :
    List Table :=
  let objectsWithRoles := existingTables.map (fun t => t.name)
  let independentObjects :=
    facts.foldl (fun acc fact => addIndepIds objectsWithRoles acc (get_nouns fact)) []
  independentObjects.map (fun objType =>
    { name := objType,
      columns := [{ name := "id", type := "string" },
                  { name := "created_at", type := "date" }],
      key := some (objType ++ "_id"),
      functionalRoles := [] })

/-- Column expansion of source `unpackBlackBoxes` (RMAP step 4): a column
whose name matches a recorded black box becomes its `<name>_id` component. -/
def unpackColumn (blackBoxes : List (Option String)) (col : Column) : List Column :=
  if some col.name ∈ blackBoxes then [{ name := col.name ++ "_id", type := "string" }]
  else [col]

/-- Source `unpackBlackBoxes`. -/
def unpackBlackBoxes (tables : List Table) (blackBoxes : List (Option String)) :
    List Table :=
  tables.map (fun table =>
    { table with columns := (table.columns.map (unpackColumn blackBoxes)).flatten })

/-- Source `handleSubtypeConstraints` (RMAP step 5): the identity pass. -/
def handleSubtypeConstraints (tables : List Table) (_constraints : List (Constraint π))
    (_subtypes : List (String × List String)) : List Table :=
  tables.map (fun table => table)

/-- The RMAP output schema: tables plus the always-empty relationships and
indices placeholders. -/
structure Schema where
  tables : List Table
  relationships : List Unit
  indices : List Unit

/-- The RMAP output: schema plus the transformed facts kept for audit. -/
structure RMapResult where
  schema : Schema
  transformedFacts : List Fact

/-- Source `RMAP` / `createRMapPipeline`: the fixed pass sequence, each pass
feeding the next, with `transformedFacts` the concatenation of the
transformed unary facts and the facts that survived reference-erasure. -/
def RMAP (facts : List Fact) (constraints : List (Constraint π))
    (subtypes : List (String × List String)) : RMapResult :=
  let tu := transformUnaries facts
  let er := eraseReferences tu.2
  let mc := mapCompoundConstraints er.2 constraints
  let objectTables := groupFunctionalRoles mc.2
  let independentTables := mapIndependentObjects mc.2 (mc.1 ++ objectTables)
  let allTables := mc.1 ++ objectTables ++ independentTables
  let unpackedTables := unpackBlackBoxes allTables er.1
  let finalTables := handleSubtypeConstraints unpackedTables constraints subtypes
  { schema := { tables := finalTables, relationships := [], indices := [] },
    transformedFacts := tu.1.map (fun u => u.transformed) ++ er.2 }

/-- The single unary fact `sleeps(Alice)`. -/
def sleepsFact : Fact := { verb := "sleeps", nouns := ["Alice"] }

/-- The binary fact `loves(Alice, Bob)`. -/
def lovesFact : Fact := { verb := "loves", nouns := ["Alice", "Bob"] }

/-- An always-true ALETHIC constraint over fact-list populations. -/
def alwaysTrueConstraint : Constraint (List Fact → Bool) :=
  { modality := ALETHIC, predicate := fun _ => true }

/-- The reference fact `identifies(userId, user)`. -/
def identifiesFact : Fact := { verb := "identifies", nouns := ["userId", "user"] }

/-- The fact `has(user, profile)`. -/
def hasFact : Fact := { verb := "has", nouns := ["user", "profile"] }

end ExecSymbols

namespace ExecSymbols

lemma fold_nil (f : α → β → β) (acc : β) : fold f acc [] = acc := rfl

lemma fold_cons (f : α → β → β) (acc : β) (h : α) (t : List α) :
    fold f acc (h :: t) = f h (fold f acc t) := rfl

lemma fold_append_singleton (f : α → β → β) (acc : β) (l : List α) (x : α) :
    fold f acc (l ++ [x]) = fold f (f x acc) l := by
  induction l with
  | nil => rfl
  | cons h t ih => simp [fold_cons, ih]

/-- `fold` agrees with the standard right fold. -/
lemma fold_eq_foldr (f : α → β → β) (acc : β) (l : List α) :
    fold f acc l = l.foldr f acc := by
  induction l with
  | nil => rfl
  | cons h t ih => simp [fold_cons, ih]

/-- Claim C5: `fold` is right-associative — `fold f acc [a, b, c]` computes
`f a (f b (f c acc))`; in general the head's application is outermost
(`fold f acc (h :: t) = f h (fold f acc t)`) and the accumulator is combined
with the last element first (`fold f acc (l ++ [x]) = fold f (f x acc) l`). -/
theorem C5_fold_right_associative :
    (∀ (α β : Type) (f : α → β → β) (acc : β) (a b c : α),
        fold f acc [a, b, c] = f a (f b (f c acc)))
    ∧ (∀ (α β : Type) (f : α → β → β) (acc : β) (h : α) (t : List α),
        fold f acc (h :: t) = f h (fold f acc t))
    ∧ (∀ (α β : Type) (f : α → β → β) (acc : β) (l : List α) (x : α),
        fold f acc (l ++ [x]) = fold f (f x acc) l) := by
  refine ⟨fun α β f acc a b c => rfl, fun α β f acc h t => rfl,
    fun α β f acc l x => fold_append_singleton f acc l x⟩

/-- The index walk of `nth` resolves to a plain positional lookup:
once the running index has passed the target the walk can never stop early,
and otherwise it returns the element `targetN - currentIndex` positions in. -/
lemma nthAux_eq (targetN : Nat) (l : List α) (currentIndex : Nat) :
    nthAux targetN l currentIndex =
      if targetN < currentIndex then none else l[targetN - currentIndex]? := by
  induction l generalizing currentIndex with
  | nil => simp [nthAux]
  | cons h t ih =>
      by_cases heq : currentIndex = targetN
      · subst heq
        simp [nthAux]
      · have : nthAux targetN (h :: t) currentIndex = nthAux targetN t (currentIndex + 1) := by
          simp [nthAux, heq]
        rw [this, ih]
        by_cases hlt : targetN < currentIndex
        · have : targetN < currentIndex + 1 := Nat.lt_succ_of_lt hlt
          simp [hlt, this]
        · have hgt : currentIndex < targetN :=
            Nat.lt_of_le_of_ne (Nat.le_of_not_lt hlt) heq
          have h1 : ¬ targetN < currentIndex + 1 := by omega
          have h2 : targetN - currentIndex = (targetN - (currentIndex + 1)) + 1 := by omega
          simp [hlt, h1, h2]

/-- `nth` is the positional lookup on the embedded list. -/
lemma nth_eq_getElem? (n : Nat) (l : List α) : nth n l = l[n]? := by
  rw [nth, nthAux_eq]
  simp

/-- Claim C8: for every index `n` and finite sequence `l`, `nth n l` returns
the nil/empty marker (`none`) whenever `n ≥ length l`, and returns the element
at position `n` otherwise. -/
theorem C8_nth_nil_on_out_of_range (n : Nat) (l : List α) :
    (l.length ≤ n → nth n l = none)
    ∧ (∀ h : n < l.length, nth n l = some (l.get ⟨n, h⟩)) := by
  constructor
  · intro hle
    rw [nth_eq_getElem?]
    exact List.getElem?_eq_none hle
  · intro h
    rw [nth_eq_getElem?]
    simp [List.getElem?_eq_getElem h]

/-- Witness for C8 at `n = 5`, `l = [10, 20]` and at `n = 1` in range. -/
theorem C8_nth_nil_on_out_of_range_witness :
    nth 5 [10, 20] = none ∧ nth 1 [10, 20] = some 20 := by
  refine ⟨(C8_nth_nil_on_out_of_range 5 [10, 20]).1 (by decide),
    (C8_nth_nil_on_out_of_range 1 [10, 20]).2 (by decide)⟩

/-- Counterexample to claim C1: on the order-sensitive machine
`transition s f = 2 * s + f` with stream `[fact 1, fact 2]`, a left-to-right
(earliest-first) evaluation would give `t (t 0 1) 2 = 4`, but `run_machine`
computes `t (t 0 2) 1 = 5`: the right fold combines the initial state with
the *last* event first. -/
theorem C1_counterexample :
    run_machine orderSensitiveMachine twoEventStream = 5
    ∧ List.foldl (stepFn orderSensitiveMachine) orderSensitiveMachine.initial
        twoEventStream = 4
    ∧ ¬ (run_machine orderSensitiveMachine twoEventStream =
          List.foldl (stepFn orderSensitiveMachine) orderSensitiveMachine.initial
            twoEventStream) := by
  refine ⟨rfl, rfl, by decide⟩

/-- Claim C1 (amended): `run_machine` applies the transition to the events
right-to-left (latest event first): the result equals the left fold of the
transition over the *reversed* stream — i.e.
`t (... t (t s0 (get_fact en)) ... ) (get_fact e1)`. -/
theorem C1_run_machine_latest_event_first (machine : StateMachine σ φ)
    (stream : List (Event φ τ ρ)) :
    run_machine machine stream =
      List.foldl (stepFn machine) machine.initial stream.reverse := by
  rw [run_machine, fold_eq_foldr]
  induction stream with
  | nil => rfl
  | cons e es ih =>
      simp only [List.foldr_cons, ih, List.reverse_cons, List.foldl_append,
        List.foldl_cons, List.foldl_nil, stepFn]

/-- Claim C7: the counter machine (unguarded transition incrementing on verb
`"inc"`, decrementing on `"dec"`) run over the events `[inc, inc, dec]` from
initial state 0 yields final state 1. -/
theorem C7_counter_machine_final_state :
    run_machine counterMachine counterStream = 1 := by
  decide

/-- `append` is list concatenation. -/
lemma append_eq (l1 l2 : List α) : append l1 l2 = l1 ++ l2 := by
  induction l1 with
  | nil => rfl
  | cons h t ih => simp [append, fold_cons] at ih ⊢; exact ih

/-- Feeding the curried accumulator one argument per remaining slot invokes
the verb function on the accumulated arguments followed by the fed ones, in
call order. -/
lemma applyCurried_makeVerbFactAux (verbFn : List α → β) (rest : List α) :
    ∀ args : List α,
      applyCurried rest.length (makeVerbFactAux verbFn args rest.length) rest
        = some (verbFn (args ++ rest)) := by
  induction rest with
  | nil => intro args; simp [applyCurried, makeVerbFactAux]
  | cons a r ih =>
      intro args
      have := ih (append args [a])
      simpa [applyCurried, makeVerbFactAux, append_eq] using this

/-- Claim C6: `makeVerbFact` accepts exactly `arity` arguments one at a time
(the type `Curried α β arity` of the result makes each application short of
`arity` a partially-applied function), and the final application invokes the
verb function with the arguments in call order; in particular for arity 2
with a `FactSymbol`-building verb function the resulting fact's `get_nouns`
is `[a, b]`, and for arity 0 the verb function is invoked immediately with
the empty sequence. -/
theorem C6_makeVerbFact_curried :
    (∀ (α β ρ κ : Type) (ft : FactType α β ρ κ) (args : List α),
        args.length = get_arity ft →
        applyCurried (get_arity ft) (makeVerbFact ft) args = some (get_verb ft args))
    ∧ (∀ (ν ρ κ : Type) (v : String) (r : ρ) (c : κ) (a b : ν),
        get_nouns (makeVerbFact
          (FactType.mk 2 (fun nouns => FactSymbol.mk v nouns) r c) a b) = [a, b])
    ∧ (∀ (α β ρ κ : Type) (verbFn : List α → β) (r : ρ) (c : κ),
        makeVerbFact (FactType.mk 0 verbFn r c) = verbFn []) := by
  refine ⟨?_, ?_, ?_⟩
  · intro α β ρ κ ft args h
    obtain ⟨n, verbFn, r, c⟩ := ft
    simp only [get_arity] at h
    subst h
    simpa using applyCurried_makeVerbFactAux verbFn args []
  · intro ν ρ κ v r c a b
    rfl
  · intro α β ρ κ verbFn r c
    rfl

/-- Witness for C6: the arity-2 identity-verb fact type applied to `[7, 9]`
invokes the verb function on `[7, 9]`. -/
theorem C6_makeVerbFact_curried_witness :
    applyCurried 2 (makeVerbFact (FactType.mk 2 (fun l => l) () ())) [7, 9]
      = some ([7, 9] : List Nat) :=
  C6_makeVerbFact_curried.1 Nat (List Nat) Unit Unit
    (FactType.mk 2 (fun l => l) () ()) [7, 9] rfl

/-- Claim C2 at the failing input `[sleeps(Alice)]`: the fold-based count of
the fact's noun sequence is one (so the intended partition would tag it as
unary), yet `transformUnaries` leaves the unary list empty and passes the
fact through to the later passes, because the source compares the two
Church-numeral closures with `===`. -/
theorem C2_unary_partition_failing_input :
    churchCount (get_nouns sleepsFact) = 1
    ∧ isUnaryIntended sleepsFact = true
    ∧ transformUnaries [sleepsFact] = ([], [sleepsFact]) :=
  ⟨rfl, rfl, rfl⟩

/-- Iterating a loop body that never modifies the accumulator leaves it
unchanged — the shape of the source's `constraints.forEach`. -/
lemma foldl_const {π : Type} (init : List (String × Bool)) (l : List (Constraint π)) :
    l.foldl (fun m _ => m) init = init := by
  induction l generalizing init with
  | nil => rfl
  | cons c cs ih =>
      rw [List.foldl_cons]
      exact ih init

/-- Claim C9: the compound-uniqueness pass is a structural no-op — for every
fact list and constraint list it returns an empty table set and its output
fact list is exactly the input, unchanged and in order. -/
theorem C9_compound_pass_noop (π : Type) (facts : List Fact)
    (constraints : List (Constraint π)) :
    mapCompoundConstraints facts constraints = ([], facts) := by
  simp [mapCompoundConstraints, foldl_const, hasCompound]

/-- Claim C3: on the single fact `loves(Alice, Bob)` with one always-true
ALETHIC constraint, RMAP keeps exactly one transformed fact and the schema's
tables include exactly one named `Alice` and one named `Bob`. -/
theorem C3_loves_alice_bob :
    (RMAP [lovesFact] [alwaysTrueConstraint] []).transformedFacts.length = 1
    ∧ ((RMAP [lovesFact] [alwaysTrueConstraint] []).schema.tables.filter
        (fun t => t.name == "Alice")).length = 1
    ∧ ((RMAP [lovesFact] [alwaysTrueConstraint] []).schema.tables.filter
        (fun t => t.name == "Bob")).length = 1 := by
  refine ⟨rfl, rfl, rfl⟩

/-- Claim C4: `transformedFacts` is the concatenation of the transformed
unary facts and the facts that survived reference-erasure; in particular on
`[identifies(userId, user), has(user, profile)]` with no constraints the
output is strictly shorter than the input (the `identifies` fact is erased). -/
theorem C4_reference_erasure :
    (∀ (π : Type) (facts : List Fact) (constraints : List (Constraint π))
        (subtypes : List (String × List String)),
        (RMAP facts constraints subtypes).transformedFacts =
          (transformUnaries facts).1.map (fun u => u.transformed)
            ++ (eraseReferences (transformUnaries facts).2).2)
    ∧ (RMAP [identifiesFact, hasFact] ([] : List (Constraint (List Fact → Bool)))
        []).transformedFacts.length < [identifiesFact, hasFact].length := by
  refine ⟨fun π facts constraints subtypes => rfl, by decide⟩

lemma mem_insertUnique_of_mem {x : String} {l : List String} (y : String)
    (h : x ∈ l) : x ∈ insertUnique l y := by
  unfold insertUnique
  split <;> simp [h]

lemma mem_insertUnique_self (l : List String) (y : String) :
    y ∈ insertUnique l y := by
  unfold insertUnique
  split
  · assumption
  · simp

lemma mem_addNounIds_of_mem_acc {id : String} {acc : List String} (h : id ∈ acc) :
    ∀ nouns : List String, id ∈ addNounIds acc nouns
  | [] => h
  | hd :: t => mem_insertUnique_of_mem hd (mem_addNounIds_of_mem_acc h t)

lemma mem_addNounIds_of_mem (acc : List String) {id : String} {nouns : List String}
    (h : id ∈ nouns) : id ∈ addNounIds acc nouns := by
  induction nouns with
  | nil => cases h
  | cons hd t ih =>
      rcases List.mem_cons.mp h with h1 | h2
      · subst h1
        exact mem_insertUnique_self _ _
      · exact mem_insertUnique_of_mem hd (ih h2)

lemma mem_foldl_addNounIds_of_mem_acc {id : String} :
    ∀ (facts : List Fact) (acc : List String), id ∈ acc →
      id ∈ facts.foldl (fun acc fact => addNounIds acc (get_nouns fact)) acc
  | [], _, h => h
  | f :: fs, acc, h =>
      mem_foldl_addNounIds_of_mem_acc fs (addNounIds acc (get_nouns f))
        (mem_addNounIds_of_mem_acc h (get_nouns f))

lemma mem_foldl_addNounIds {id : String} :
    ∀ (facts : List Fact) (acc : List String) (fact : Fact), fact ∈ facts →
      id ∈ get_nouns fact →
      id ∈ facts.foldl (fun acc fact => addNounIds acc (get_nouns fact)) acc := by
  intro facts
  induction facts with
  | nil => intro acc fact hf _; cases hf
  | cons f fs ih =>
      intro acc fact hf hid
      rw [List.foldl_cons]
      rcases List.mem_cons.mp hf with h1 | h2
      · subst h1
        exact mem_foldl_addNounIds_of_mem_acc fs _ (mem_addNounIds_of_mem acc hid)
      · exact ih _ fact h2 hid

/-- Every noun identifier of every fact is collected into `objectTypes`. -/
lemma mem_collectObjectTypes {facts : List Fact} {fact : Fact} (hf : fact ∈ facts)
    {id : String} (hid : id ∈ get_nouns fact) :
    id ∈ collectObjectTypes facts :=
  mem_foldl_addNounIds facts [] fact hf hid

/-- `groupFunctionalRoles` names exactly the collected object types. -/
lemma groupFunctionalRoles_names (facts : List Fact) :
    (groupFunctionalRoles facts).map (fun t => t.name) = collectObjectTypes facts := by
  simp [groupFunctionalRoles, List.map_map, Function.comp_def]

lemma addIndepIds_eq_acc {roles nouns : List String}
    (h : ∀ id ∈ nouns, id ∈ roles) (acc : List String) :
    addIndepIds roles acc nouns = acc := by
  induction nouns with
  | nil => rfl
  | cons hd t ih =>
      have hhd : hd ∈ roles := h hd (List.mem_cons_self hd t)
      have ht : ∀ id ∈ t, id ∈ roles := fun id hid => h id (List.mem_cons_of_mem hd hid)
      simp [addIndepIds, ih ht, hhd]

lemma foldl_addIndepIds_nil {roles : List String} {facts : List Fact}
    (h : ∀ fact ∈ facts, ∀ id ∈ get_nouns fact, id ∈ roles) :
    facts.foldl (fun acc fact => addIndepIds roles acc (get_nouns fact)) [] = [] := by
  induction facts with
  | nil => rfl
  | cons f fs ih =>
      rw [List.foldl_cons, addIndepIds_eq_acc (h f (List.mem_cons_self f fs))]
      exact ih (fun fact hf id hid => h fact (List.mem_cons_of_mem f hf) id hid)

/-- The independent-objects pass run after functional-role grouping over the
same fact list finds nothing left to cover. -/
lemma mapIndependentObjects_after_group (fs : List Fact) (T : List Table) :
    mapIndependentObjects fs (T ++ groupFunctionalRoles fs) = [] := by
  have hcover : ∀ fact ∈ fs, ∀ id ∈ get_nouns fact,
      id ∈ (T ++ groupFunctionalRoles fs).map (fun t => t.name) := by
    intro fact hf id hid
    rw [List.map_append]
    exact List.mem_append_right _
      (by rw [groupFunctionalRoles_names]; exact mem_collectObjectTypes hf hid)
  simp only [mapIndependentObjects]
  rw [foldl_addIndepIds_nil hcover]
  rfl

/-- Claim C10: for every input to RMAP the independent-objects pass emits
zero tables — the functional-role grouping already produced a table named
after every identifier in the remaining facts, so no table with the generated
`id` and `created_at` columns ever reaches the output schema. -/
theorem C10_independent_pass_empty (π : Type) (facts : List Fact)
    (constraints : List (Constraint π)) :
    mapIndependentObjects
      (mapCompoundConstraints (eraseReferences (transformUnaries facts).2).2 constraints).2
      ((mapCompoundConstraints (eraseReferences (transformUnaries facts).2).2 constraints).1
        ++ groupFunctionalRoles
            (mapCompoundConstraints (eraseReferences (transformUnaries facts).2).2
              constraints).2) = [] :=
  mapIndependentObjects_after_group _ _

end ExecSymbols
